import Mathlib

/-!
Shallow embedding of the core business logic of the Nkuna Burial Society
application: the fee calculator, the virtual-balance ledger, the policy /
covered-member manager and the automated claim-settlement flow, translated
from `config.py`, `models.py`, `utils.py`, `auth.py` and `routes.py`.

Monetary values are modelled as rationals; dates as integers (day counts),
so `timedelta(days=30)` becomes `+ 30`.
-/

namespace Nkuna

abbrev Money := ℚ

/-! ### config.py -/

/-- Config.SERVICE_FEE_PERCENT = 2.5 -/
def SERVICE_FEE_PERCENT : Money := 5/2

/-- Config.SERVICE_FEE_MIN = 10.0 -/
def SERVICE_FEE_MIN : Money := 10

/-- Config.CLAIM_FEE_PERCENT = 1.0 -/
def CLAIM_FEE_PERCENT : Money := 1

/-- Config.CLAIM_FEE_MIN = 50.0 -/
def CLAIM_FEE_MIN : Money := 50

/-- Config.REGISTRATION_FEE = 100.0 -/
def REGISTRATION_FEE : Money := 100

/-- Config.MAX_DEPOSIT_PER_TRANSACTION = 50000.0 -/
def MAX_DEPOSIT_PER_TRANSACTION : Money := 50000

/-- Config.MAX_BALANCE = 100000.0 -/
def MAX_BALANCE : Money := 100000

/-- Config.AGE_BANDS: flat monthly premium per age band, in band order
`0-18, 19-30, 31-45, 46-60, 61-75, 76+`. -/
def AGE_BANDS : Fin 6 → Money
  | 0 => 50
  | 1 => 100
  | 2 => 150
  | 3 => 200
  | 4 => 250
  | 5 => 300

/-! ### utils.py -/

/-- utils.calculate_age_premium: if/elif chain over the age bands. -/
def calculate_age_premium (age : ℤ) : Money :=
  if age ≤ 18 then AGE_BANDS 0
  else if age ≤ 30 then AGE_BANDS 1
  else if age ≤ 45 then AGE_BANDS 2
  else if age ≤ 60 then AGE_BANDS 3
  else if age ≤ 75 then AGE_BANDS 4
  else AGE_BANDS 5

/-! ### models.py -/

/-- models.User: the fields the core logic reads and writes. -/
structure User where
  id : ℤ
  virtual_balance : Money
  registration_fee_paid : Bool
deriving DecidableEq, Repr

/-- models.User.can_deposit. -/
def User.can_deposit (u : User) (amount : Money) : Prop :=
  amount ≤ MAX_DEPOSIT_PER_TRANSACTION ∧
    u.virtual_balance + amount ≤ MAX_BALANCE

instance (u : User) (amount : Money) : Decidable (u.can_deposit amount) := by
  unfold User.can_deposit
  exact inferInstance

/-- models.Policy: the fields the core logic reads and writes. -/
structure Policy where
  id : ℤ
  user_id : ℤ
  coverage_amount : Money
  monthly_premium : Money
  status : String
  start_date : ℤ
  next_payment_date : ℤ
deriving DecidableEq, Repr

/-- models.CoveredMember: the fields the core logic reads and writes. -/
structure CoveredMember where
  id : ℤ
  policy_id : ℤ
  monthly_premium : Money
  is_active : Bool
  has_claim : Bool
deriving DecidableEq, Repr

/-- models.Claim: the monetary and linkage fields. -/
structure ClaimRec where
  policy_id : ℤ
  covered_member_id : Option ℤ
  claim_amount : Money
  processing_fee : Money
  net_amount : Money
  status : String
deriving DecidableEq, Repr

/-- models.Transaction: the ledger-entry fields. -/
structure TransactionRec where
  transaction_type : String
  amount : Money
  service_fee : Money
  net_amount : Money
  status : String
deriving DecidableEq, Repr

/-- The persistent state one request acts on: the acting account
(`current_user`) and the relational tables, with `next_id` standing for
the autoincrement primary-key counter. -/
structure AppState where
  user : User
  policies : List Policy
  covered_members : List CoveredMember
  claims : List ClaimRec
  transactions : List TransactionRec
  next_id : ℤ
deriving DecidableEq, Repr

/-- Typed failures of the core operations (spec §7). -/
inductive AppErr where
  | formInvalid
  | limitExceeded
  | insufficientFunds
  | validation
  | capacityExceeded
  | registrationRequired
  | alreadyPaid
  | notFound
  | forbidden
  | persistence
deriving DecidableEq, Repr

/-- models.Policy.calculate_total_premium: owner premium plus all covered
members' premiums (no filtering on flags). -/
def calculate_total_premium (st : AppState) (p : Policy) : Money :=
  p.monthly_premium +
    ((st.covered_members.filter (fun m => m.policy_id == p.id)).map
      (fun m => m.monthly_premium)).sum

/-- The percentage-with-minimum service-fee pattern of routes.deposit and
routes.pay_premium: `service_fee = amount * SERVICE_FEE_PERCENT / 100`,
raised to `SERVICE_FEE_MIN` when below it. -/
def service_charge (amount : Money) : Money :=
  let fee0 := amount * SERVICE_FEE_PERCENT / 100
  if fee0 < SERVICE_FEE_MIN then SERVICE_FEE_MIN else fee0

/-- The processing-fee pattern of routes.submit_claim:
`processing_fee = claim_amount * CLAIM_FEE_PERCENT / 100`, raised to
`CLAIM_FEE_MIN` when below it. -/
def claim_charge (amount : Money) : Money :=
  let fee0 := amount * CLAIM_FEE_PERCENT / 100
  if fee0 < CLAIM_FEE_MIN then CLAIM_FEE_MIN else fee0

/-! ### routes.py / auth.py operations

Each route is embedded from its POST handler. Web-form validation
(`form.validate_on_submit()`, whose numeric bounds live in `forms.py`) is
part of the handler's body and is embedded as the leading guard. An error
result means the route flashed a message and applied no mutation (on a
storage failure, `db.session.rollback()` discards every uncommitted
mutation of the request's session). -/

/-- routes.deposit (POST path). DepositForm requires 10 ≤ amount ≤ 50000;
then `User.can_deposit` gates; then the fee is charged and the net amount
credited, with a `deposit` Transaction appended in the same commit. -/
def deposit (amount : Money) (st : AppState) : Except AppErr AppState :=
  if ¬ (10 ≤ amount ∧ amount ≤ 50000) then .error .formInvalid
  else if ¬ st.user.can_deposit amount then .error .limitExceeded
  else
    let service_fee := service_charge amount
    let net_amount := amount - service_fee
    .ok { st with
      user := { st.user with
        virtual_balance := st.user.virtual_balance + net_amount },
      transactions := st.transactions ++
        [⟨"deposit", amount, service_fee, net_amount, "completed"⟩] }

/-- auth.pay_registration_fee: redirects without mutation when already
paid or when the balance is short; otherwise deducts the flat fee, sets
the flag and appends a `registration_fee` Transaction. -/
def pay_registration_fee (st : AppState) : Except AppErr AppState :=
  if st.user.registration_fee_paid then .error .alreadyPaid
  else if st.user.virtual_balance < REGISTRATION_FEE then .error .insufficientFunds
  else
    .ok { st with
      user := { st.user with
        virtual_balance := st.user.virtual_balance - REGISTRATION_FEE,
        registration_fee_paid := true },
      transactions := st.transactions ++
        [⟨"registration_fee", REGISTRATION_FEE, 0, -REGISTRATION_FEE, "completed"⟩] }

/-- routes.create_policy (POST path). Requires the registration fee paid;
PolicyForm requires 1000 ≤ coverage ≤ 1000000; the base premium is 0.1%
of coverage and the first payment falls due 30 days after the start. -/
def create_policy (coverage : Money) (start : ℤ) (st : AppState) :
    Except AppErr AppState :=
  if ¬ st.user.registration_fee_paid then .error .registrationRequired
  else if ¬ (1000 ≤ coverage ∧ coverage ≤ 1000000) then .error .formInvalid
  else
    let base_premium := coverage * (1/1000)
    .ok { st with
      policies := st.policies ++
        [⟨st.next_id, st.user.id, coverage, base_premium, "active",
          start, start + 30⟩],
      next_id := st.next_id + 1 }

/-- routes.add_member (POST path). The policy must exist and belong to the
acting user; the capacity check `len(policy.covered_members) >= 14` runs
before the form; on success the member is appended with the age-banded
premium and the column defaults `is_active=True, has_claim=False`. -/
def add_member (policy_id : ℤ) (age : ℤ) (st : AppState) :
    Except AppErr AppState :=
  match st.policies.find? (fun p => p.id == policy_id) with
  | none => .error .notFound
  | some policy =>
    if policy.user_id ≠ st.user.id then .error .forbidden
    else if 14 ≤ (st.covered_members.filter
        (fun m => m.policy_id == policy_id)).length then
      .error .capacityExceeded
    else
      let monthly_premium := calculate_age_premium age
      .ok { st with
        covered_members := st.covered_members ++
          [⟨st.next_id, policy_id, monthly_premium, true, false⟩],
        next_id := st.next_id + 1 }

/-- routes.pay_premium (POST path). The policy must exist and belong to
the acting user; PremiumPaymentForm requires amount ≥ 1; the amount must
cover the total premium and the balance must cover the amount; then the
balance is debited by the full amount, the policy's next payment date
advances by 30 days and a `premium_payment` Transaction is appended. -/
def pay_premium (policy_id : ℤ) (amount : Money) (st : AppState) :
    Except AppErr AppState :=
  match st.policies.find? (fun p => p.id == policy_id) with
  | none => .error .notFound
  | some policy =>
    if policy.user_id ≠ st.user.id then .error .forbidden
    else if ¬ (1 ≤ amount) then .error .formInvalid
    else if amount < calculate_total_premium st policy then .error .validation
    else if st.user.virtual_balance < amount then .error .insufficientFunds
    else
      let service_fee := service_charge amount
      .ok { st with
        user := { st.user with
          virtual_balance := st.user.virtual_balance - amount },
        policies := st.policies.map (fun p =>
          if p.id = policy_id then
            { p with next_payment_date := p.next_payment_date + 30 }
          else p),
        transactions := st.transactions ++
          [⟨"premium_payment", amount, service_fee, -amount, "completed"⟩] }

/-- The state after the try-block of routes.submit_claim: the `paid`
Claim inserted, the net amount credited to the claimant's balance, a
`claim_payout` Transaction appended, and — when a covered member (not the
owner) was named — that member marked `has_claim=True, is_active=False`.
All of it becomes visible only at the commit in `settle_commit`. -/
def settled_state (policy : Policy) (covered_member_id : Option ℤ)
    (policy_id : ℤ) (st : AppState) : AppState :=
  let claim_amount := policy.coverage_amount
  let processing_fee := claim_charge claim_amount
  let net_amount := claim_amount - processing_fee
  { st with
    user := { st.user with
      virtual_balance := st.user.virtual_balance + net_amount },
    covered_members :=
      match covered_member_id with
      | none => st.covered_members
      | some mid => st.covered_members.map (fun m =>
          if m.id = mid then
            { m with has_claim := true, is_active := false }
          else m),
    claims := st.claims ++
      [⟨policy_id, covered_member_id, claim_amount, processing_fee,
        net_amount, "paid"⟩],
    transactions := st.transactions ++
      [⟨"claim_payout", claim_amount, processing_fee, net_amount,
        "completed"⟩] }

/-- The commit boundary of routes.submit_claim: on success every effect
of `settled_state` becomes visible as one unit; on a storage failure
`db.session.rollback()` discards all of them. -/
def settle_commit (commitOk : Bool) (policy : Policy)
    (covered_member_id : Option ℤ) (policy_id : ℤ) (st : AppState) :
    Except AppErr AppState :=
  if commitOk then .ok (settled_state policy covered_member_id policy_id st)
  else .error .persistence

/-- routes.submit_claim (POST path, automated payment). Requires the
registration fee paid; the selected policy must exist and belong to the
acting user; `member_id = 0` designates the policy owner, otherwise the
member must exist and belong to the policy (the handler performs no
`has_claim` re-check on the POSTed member); then `settle_commit` applies
the whole settlement as one storage commit. -/
def submit_claim (commitOk : Bool) (policy_id member_id : ℤ)
    (st : AppState) : Except AppErr AppState :=
  if ¬ st.user.registration_fee_paid then .error .registrationRequired
  else
    match st.policies.find? (fun p => p.id == policy_id) with
    | none => .error .validation
    | some policy =>
      if policy.user_id ≠ st.user.id then .error .validation
      else if member_id = 0 then
        settle_commit commitOk policy none policy_id st
      else
        match st.covered_members.find? (fun m => m.id == member_id) with
        | none => .error .validation
        | some member =>
          if member.policy_id ≠ policy_id then .error .validation
          else settle_commit commitOk policy (some member_id) policy_id st

/-! ### Operations as a step relation on states -/

/-- One user-facing core operation. -/
inductive Op where
  | opDeposit (amount : Money)
  | opPayRegistrationFee
  | opCreatePolicy (coverage : Money) (start : ℤ)
  | opAddMember (policy_id age : ℤ)
  | opPayPremium (policy_id : ℤ) (amount : Money)
  | opSubmitClaim (commitOk : Bool) (policy_id member_id : ℤ)
deriving DecidableEq, Repr

/-- Run one operation against the state; a failed operation (including a
rolled-back commit) leaves the state as it was. -/
def apply_op (op : Op) (st : AppState) : Except AppErr AppState :=
  match op with
  | .opDeposit a => deposit a st
  | .opPayRegistrationFee => pay_registration_fee st
  | .opCreatePolicy c s => create_policy c s st
  | .opAddMember pid age => add_member pid age st
  | .opPayPremium pid a => pay_premium pid a st
  | .opSubmitClaim ok pid mid => submit_claim ok pid mid st

def step (op : Op) (st : AppState) : AppState :=
  match apply_op op st with
  | .ok st' => st'
  | .error _ => st

/-- Run a sequence of operations. -/
def run (ops : List Op) (st : AppState) : AppState :=
  ops.foldl (fun s o => step o s) st

/-- A fresh account directly after signup: zero balance, registration fee
unpaid, no rows. -/
def initState (uid : ℤ) : AppState :=
  ⟨⟨uid, 0, false⟩, [], [], [], [], 1⟩

/-! ### Helper lemmas -/

theorem service_charge_eq_max (a : Money) :
    service_charge a = max (a * SERVICE_FEE_PERCENT / 100) SERVICE_FEE_MIN := by
  unfold service_charge
  rcases le_or_lt SERVICE_FEE_MIN (a * SERVICE_FEE_PERCENT / 100) with h | h
  · rw [if_neg (not_lt.mpr h), max_eq_left h]
  · rw [if_pos h, max_eq_right h.le]

theorem claim_charge_eq_max (a : Money) :
    claim_charge a = max (a * CLAIM_FEE_PERCENT / 100) CLAIM_FEE_MIN := by
  unfold claim_charge
  rcases le_or_lt CLAIM_FEE_MIN (a * CLAIM_FEE_PERCENT / 100) with h | h
  · rw [if_neg (not_lt.mpr h), max_eq_left h]
  · rw [if_pos h, max_eq_right h.le]

theorem find?_append_of_some {α : Type} {l l' : List α} {q : α → Bool} {x : α}
    (h : l.find? q = some x) : (l ++ l').find? q = some x := by
  induction l with
  | nil => simp [List.find?] at h
  | cons a t ih =>
    rw [List.cons_append]
    by_cases hq : q a
    · rw [List.find?_cons_of_pos _ hq] at h ⊢; exact h
    · rw [List.find?_cons_of_neg _ hq] at h ⊢; exact ih h

theorem find?_map_of_id_pred {α : Type} (l : List α) (f : α → α) (q : α → Bool)
    (hf : ∀ x, q (f x) = q x) : (l.map f).find? q = (l.find? q).map f := by
  induction l with
  | nil => simp
  | cons a t ih =>
    rw [List.map_cons]
    by_cases hq : q a
    · rw [List.find?_cons_of_pos _ (by rw [hf]; exact hq),
        List.find?_cons_of_pos _ hq]
      rfl
    · rw [List.find?_cons_of_neg _ (by rw [hf]; exact hq),
        List.find?_cons_of_neg _ hq, ih]

/-! ### Inversion lemmas: what a successful operation did -/

theorem deposit_ok {a : Money} {st st' : AppState}
    (h : deposit a st = .ok st') :
    (10 ≤ a ∧ a ≤ 50000) ∧ st.user.can_deposit a ∧
    st' = { st with
      user := { st.user with
        virtual_balance := st.user.virtual_balance + (a - service_charge a) },
      transactions := st.transactions ++
        [⟨"deposit", a, service_charge a, a - service_charge a, "completed"⟩] } := by
  unfold deposit at h
  by_cases h1 : 10 ≤ a ∧ a ≤ 50000
  · rw [if_neg (not_not_intro h1)] at h
    by_cases h2 : st.user.can_deposit a
    · rw [if_neg (not_not_intro h2)] at h
      exact ⟨h1, h2, ((Except.ok.injEq _ _).mp h).symm⟩
    · rw [if_pos h2] at h
      exact Except.noConfusion h
  · rw [if_pos h1] at h
    exact Except.noConfusion h

theorem pay_registration_fee_ok {st st' : AppState}
    (h : pay_registration_fee st = .ok st') :
    st.user.registration_fee_paid = false ∧
    REGISTRATION_FEE ≤ st.user.virtual_balance ∧
    st' = { st with
      user := { st.user with
        virtual_balance := st.user.virtual_balance - REGISTRATION_FEE,
        registration_fee_paid := true },
      transactions := st.transactions ++
        [⟨"registration_fee", REGISTRATION_FEE, 0, -REGISTRATION_FEE,
          "completed"⟩] } := by
  unfold pay_registration_fee at h
  by_cases h1 : st.user.registration_fee_paid
  · rw [if_pos h1] at h
    exact Except.noConfusion h
  · rw [if_neg h1] at h
    by_cases h2 : st.user.virtual_balance < REGISTRATION_FEE
    · rw [if_pos h2] at h
      exact Except.noConfusion h
    · rw [if_neg h2] at h
      exact ⟨Bool.eq_false_iff.mpr h1, not_lt.mp h2,
        ((Except.ok.injEq _ _).mp h).symm⟩

theorem create_policy_ok {c : Money} {s : ℤ} {st st' : AppState}
    (h : create_policy c s st = .ok st') :
    st.user.registration_fee_paid = true ∧ (1000 ≤ c ∧ c ≤ 1000000) ∧
    st' = { st with
      policies := st.policies ++
        [⟨st.next_id, st.user.id, c, c * (1/1000), "active", s, s + 30⟩],
      next_id := st.next_id + 1 } := by
  unfold create_policy at h
  by_cases h1 : st.user.registration_fee_paid
  · rw [if_neg (not_not_intro h1)] at h
    by_cases h2 : 1000 ≤ c ∧ c ≤ 1000000
    · rw [if_neg (not_not_intro h2)] at h
      exact ⟨h1, h2, ((Except.ok.injEq _ _).mp h).symm⟩
    · rw [if_pos h2] at h
      exact Except.noConfusion h
  · rw [if_pos h1] at h
    exact Except.noConfusion h

theorem add_member_ok {pid age : ℤ} {st st' : AppState}
    (h : add_member pid age st = .ok st') :
    ∃ p, st.policies.find? (fun q => q.id == pid) = some p ∧
      p.user_id = st.user.id ∧
      (st.covered_members.filter (fun m => m.policy_id == pid)).length < 14 ∧
      st' = { st with
        covered_members := st.covered_members ++
          [⟨st.next_id, pid, calculate_age_premium age, true, false⟩],
        next_id := st.next_id + 1 } := by
  unfold add_member at h
  split at h
  · exact Except.noConfusion h
  case _ p hp =>
    by_cases h1 : p.user_id = st.user.id
    · rw [if_neg (not_not_intro h1)] at h
      by_cases h2 : 14 ≤ (st.covered_members.filter
          (fun m => m.policy_id == pid)).length
      · rw [if_pos h2] at h
        exact Except.noConfusion h
      · rw [if_neg h2] at h
        exact ⟨p, hp, h1, by omega, ((Except.ok.injEq _ _).mp h).symm⟩
    · rw [if_pos h1] at h
      exact Except.noConfusion h

theorem pay_premium_ok {pid : ℤ} {a : Money} {st st' : AppState}
    (h : pay_premium pid a st = .ok st') :
    ∃ p, st.policies.find? (fun q => q.id == pid) = some p ∧
      p.user_id = st.user.id ∧ 1 ≤ a ∧
      calculate_total_premium st p ≤ a ∧
      a ≤ st.user.virtual_balance ∧
      st' = { st with
        user := { st.user with
          virtual_balance := st.user.virtual_balance - a },
        policies := st.policies.map (fun p =>
          if p.id = pid then
            { p with next_payment_date := p.next_payment_date + 30 }
          else p),
        transactions := st.transactions ++
          [⟨"premium_payment", a, service_charge a, -a, "completed"⟩] } := by
  unfold pay_premium at h
  split at h
  · exact Except.noConfusion h
  case _ p hp =>
    by_cases h1 : p.user_id = st.user.id
    · rw [if_neg (not_not_intro h1)] at h
      by_cases h2 : 1 ≤ a
      · rw [if_neg (not_not_intro h2)] at h
        by_cases h3 : a < calculate_total_premium st p
        · rw [if_pos h3] at h
          exact Except.noConfusion h
        · rw [if_neg h3] at h
          by_cases h4 : st.user.virtual_balance < a
          · rw [if_pos h4] at h
            exact Except.noConfusion h
          · rw [if_neg h4] at h
            exact ⟨p, hp, h1, h2, not_lt.mp h3, not_lt.mp h4,
              ((Except.ok.injEq _ _).mp h).symm⟩
      · rw [if_pos h2] at h
        exact Except.noConfusion h
    · rw [if_pos h1] at h
      exact Except.noConfusion h

theorem settle_commit_ok {ok : Bool} {policy : Policy} {cmid : Option ℤ}
    {pid : ℤ} {st st' : AppState}
    (h : settle_commit ok policy cmid pid st = .ok st') :
    ok = true ∧ st' = settled_state policy cmid pid st := by
  unfold settle_commit at h
  by_cases hok : ok = true
  · rw [if_pos hok] at h
    exact ⟨hok, ((Except.ok.injEq _ _).mp h).symm⟩
  · rw [if_neg hok] at h
    exact Except.noConfusion h

theorem submit_claim_ok {ok : Bool} {pid mid : ℤ} {st st' : AppState}
    (h : submit_claim ok pid mid st = .ok st') :
    ok = true ∧ st.user.registration_fee_paid = true ∧
    ∃ p, st.policies.find? (fun q => q.id == pid) = some p ∧
      p.user_id = st.user.id ∧
      st' = settled_state p (if mid = 0 then none else some mid) pid st ∧
      (mid ≠ 0 → ∃ m, st.covered_members.find? (fun w => w.id == mid) = some m ∧
        m.policy_id = pid) := by
  unfold submit_claim at h
  by_cases h1 : st.user.registration_fee_paid
  · rw [if_neg (not_not_intro h1)] at h
    split at h
    · exact Except.noConfusion h
    case _ p hp =>
      by_cases h2 : p.user_id = st.user.id
      · rw [if_neg (not_not_intro h2)] at h
        by_cases h3 : mid = 0
        · rw [if_pos h3] at h
          obtain ⟨hok, hst⟩ := settle_commit_ok h
          exact ⟨hok, h1, p, hp, h2,
            by rw [if_pos h3]; exact hst, fun hc => absurd h3 hc⟩
        · rw [if_neg h3] at h
          split at h
          · exact Except.noConfusion h
          case _ m hm =>
            by_cases h4 : m.policy_id = pid
            · rw [if_neg (not_not_intro h4)] at h
              obtain ⟨hok, hst⟩ := settle_commit_ok h
              exact ⟨hok, h1, p, hp, h2,
                by rw [if_neg h3]; exact hst, fun _ => ⟨m, hm, h4⟩⟩
            · rw [if_pos h4] at h
              exact Except.noConfusion h
      · rw [if_pos h2] at h
        exact Except.noConfusion h
  · rw [if_pos h1] at h
    exact Except.noConfusion h

theorem submit_claim_commit_fail (pid mid : ℤ) (st : AppState) :
    ∀ st', submit_claim false pid mid st ≠ .ok st' := by
  intro st' h
  exact Bool.false_ne_true (submit_claim_ok h).1

theorem step_eq_of_err (op : Op) {st : AppState} {e : AppErr}
    (h : apply_op op st = .error e) : step op st = st := by
  unfold step
  rw [h]

theorem step_eq_of_ok (op : Op) {st st' : AppState}
    (h : apply_op op st = .ok st') : step op st = st' := by
  unfold step
  rw [h]

/-! ### Concrete states used to exercise the operations -/

/-- Account 7 after it has already settled a claim for covered member 2
of its policy 1: the member's `has_claim` flag is true and the member is
deactivated. -/
def replay_state : AppState :=
  ⟨⟨7, 200, true⟩, [⟨1, 7, 50000, 50, "active", 0, 30⟩],
   [⟨2, 1, 100, false, true⟩], [], [], 3⟩

/-- Account 7 with a fresh R50,000-coverage policy 1 and no members. -/
def coverage_state : AppState :=
  ⟨⟨7, 0, true⟩, [⟨1, 7, 50000, 50, "active", 0, 30⟩], [], [], [], 2⟩

/-- The state `coverage_state` after the automated settlement of an
owner claim (member id 0) on policy 1. -/
def coverage_state_settled : AppState :=
  ⟨⟨7, 49500, true⟩, [⟨1, 7, 50000, 50, "active", 0, 30⟩], [],
   [⟨1, none, 50000, 500, 49500, "paid"⟩],
   [⟨"claim_payout", 50000, 500, 49500, "completed"⟩], 2⟩

/-- The state `initState 7` after a R1,000 deposit. -/
def deposited_state : AppState :=
  ⟨⟨7, 975, false⟩, [], [], [],
   [⟨"deposit", 1000, 25, 975, "completed"⟩], 1⟩

/-- Account 7 with balance R99,990, ten rand below the balance cap. -/
def near_max_state : AppState :=
  ⟨⟨7, 99990, true⟩, [], [], [], [], 1⟩

/-- Account 7 with policy 1 (coverage R50,000) and one active, unclaimed
covered member 2. -/
def member_state : AppState :=
  ⟨⟨7, 0, true⟩, [⟨1, 7, 50000, 50, "active", 0, 30⟩],
   [⟨2, 1, 100, true, false⟩], [], [], 3⟩

/-- The state `member_state` after the automated settlement of a claim
naming covered member 2. -/
def member_state_settled : AppState :=
  ⟨⟨7, 49500, true⟩, [⟨1, 7, 50000, 50, "active", 0, 30⟩],
   [⟨2, 1, 100, false, true⟩],
   [⟨1, some 2, 50000, 500, 49500, "paid"⟩],
   [⟨"claim_payout", 50000, 500, 49500, "completed"⟩], 3⟩

/-! ### Claim C1 -/

/-- C1: Non-replay of settlements — the spec requires that a settlement
request for a covered member whose `hasClaim` flag is already true fails
with a ValidationError and changes nothing. The code has no such check on
the POSTed member id: at `replay_state`, whose member 2 already has
`has_claim = true`, a second settlement for member 2 succeeds, appends a
new claim and credits the net amount (R49,500) to the balance again. -/
theorem c1_second_settlement_pays_again :
    (submit_claim true 1 2 replay_state).map
        (fun s => (s.user.virtual_balance, s.claims.length)) =
      .ok (49700, 1) := by
  norm_num [replay_state, submit_claim, settle_commit, settled_state,
    claim_charge, CLAIM_FEE_PERCENT, CLAIM_FEE_MIN, List.find?, Except.map]

/-! ### Claim C2 -/

/-- C2: Claim settlement is all-or-nothing. Whenever a settlement can
succeed, a storage failure at the commit (`commitOk = false`) leaves the
state completely unchanged; and a successful settlement makes all its
effects visible together: a `paid` Claim appended, the balance credited
by exactly its net amount, a `claim_payout` Transaction appended, and —
when a member is named — that member left with `has_claim = true` and
`is_active = false`. -/
theorem c2_settlement_all_or_nothing (pid mid : ℤ) (st st' : AppState)
    (h : submit_claim true pid mid st = .ok st') :
    step (.opSubmitClaim false pid mid) st = st ∧
    ∃ c : ClaimRec, ∃ t : TransactionRec,
      c.status = "paid" ∧
      st'.claims = st.claims ++ [c] ∧
      st'.user.virtual_balance = st.user.virtual_balance + c.net_amount ∧
      t.transaction_type = "claim_payout" ∧
      t.net_amount = c.net_amount ∧
      st'.transactions = st.transactions ++ [t] ∧
      (mid ≠ 0 → c.covered_member_id = some mid ∧
        ∀ m ∈ st'.covered_members, m.id = mid →
          m.has_claim = true ∧ m.is_active = false) := by
  constructor
  · cases hsc : submit_claim false pid mid st with
    | ok s => exact absurd hsc (submit_claim_commit_fail pid mid st s)
    | error e => exact step_eq_of_err (.opSubmitClaim false pid mid) hsc
  · obtain ⟨-, -, p, hp, hown, hst, -⟩ := submit_claim_ok h
    subst hst
    refine ⟨⟨pid, if mid = 0 then none else some mid, p.coverage_amount,
        claim_charge p.coverage_amount,
        p.coverage_amount - claim_charge p.coverage_amount, "paid"⟩,
      ⟨"claim_payout", p.coverage_amount, claim_charge p.coverage_amount,
        p.coverage_amount - claim_charge p.coverage_amount, "completed"⟩,
      rfl, rfl, rfl, rfl, rfl, rfl, ?_⟩
    intro hmid
    refine ⟨by rw [if_neg hmid], ?_⟩
    intro m hm hid
    unfold settled_state at hm
    rw [if_neg hmid] at hm
    simp only at hm
    obtain ⟨x, hx, rfl⟩ := List.mem_map.mp hm
    by_cases hxid : x.id = mid
    · rw [if_pos hxid]
      exact ⟨rfl, rfl⟩
    · rw [if_neg hxid] at hid
      exact absurd hid hxid

/-- Witness for C2: at `member_state` the settlement naming member 2 can
succeed, so the theorem applies concretely: a failed commit changes
nothing, and the successful settlement shows all effects together. -/
theorem c2_witness :
    step (.opSubmitClaim false 1 2) member_state = member_state ∧
    ∃ c : ClaimRec, ∃ t : TransactionRec,
      c.status = "paid" ∧
      member_state_settled.claims = member_state.claims ++ [c] ∧
      member_state_settled.user.virtual_balance =
        member_state.user.virtual_balance + c.net_amount ∧
      t.transaction_type = "claim_payout" ∧
      t.net_amount = c.net_amount ∧
      member_state_settled.transactions = member_state.transactions ++ [t] ∧
      ((2 : ℤ) ≠ 0 → c.covered_member_id = some 2 ∧
        ∀ m ∈ member_state_settled.covered_members, m.id = 2 →
          m.has_claim = true ∧ m.is_active = false) :=
  c2_settlement_all_or_nothing 1 2 member_state member_state_settled
    (by norm_num [submit_claim, member_state, member_state_settled,
      settle_commit, settled_state, claim_charge, CLAIM_FEE_PERCENT,
      CLAIM_FEE_MIN, List.find?])

/-! ### Claim C3 -/

/-- C3: For every successful claim settlement, the claim amount equals
the selected policy's coverage amount, the processing fee is
`max(claimAmount * 1.0/100, 50)` (the configured claim fee rule), and
the balance is credited by `claimAmount - processingFee`. -/
theorem c3_claim_amount_and_fee (pid mid : ℤ) (st st' : AppState)
    (h : submit_claim true pid mid st = .ok st') :
    ∃ p, st.policies.find? (fun q => q.id == pid) = some p ∧
    ∃ c : ClaimRec,
      st'.claims = st.claims ++ [c] ∧
      c.claim_amount = p.coverage_amount ∧
      c.processing_fee =
        max (c.claim_amount * CLAIM_FEE_PERCENT / 100) CLAIM_FEE_MIN ∧
      c.net_amount = c.claim_amount - c.processing_fee ∧
      st'.user.virtual_balance = st.user.virtual_balance + c.net_amount := by
  obtain ⟨-, -, p, hp, hown, hst, -⟩ := submit_claim_ok h
  subst hst
  exact ⟨p, hp,
    ⟨pid, if mid = 0 then none else some mid, p.coverage_amount,
      claim_charge p.coverage_amount,
      p.coverage_amount - claim_charge p.coverage_amount, "paid"⟩,
    rfl, rfl, claim_charge_eq_max p.coverage_amount, rfl, rfl⟩

/-- Witness for C3 at coverage R50,000: the processing fee is R500 and
R49,500 is credited, taking the balance from R0 to R49,500. -/
theorem c3_witness :
    submit_claim true 1 0 coverage_state = .ok coverage_state_settled ∧
    coverage_state_settled.claims = [⟨1, none, 50000, 500, 49500, "paid"⟩] ∧
    coverage_state_settled.user.virtual_balance = 49500 ∧
    (∃ p, coverage_state.policies.find? (fun q => q.id == 1) = some p ∧
      ∃ c : ClaimRec,
        coverage_state_settled.claims = coverage_state.claims ++ [c] ∧
        c.claim_amount = p.coverage_amount ∧
        c.processing_fee =
          max (c.claim_amount * CLAIM_FEE_PERCENT / 100) CLAIM_FEE_MIN ∧
        c.net_amount = c.claim_amount - c.processing_fee ∧
        coverage_state_settled.user.virtual_balance =
          coverage_state.user.virtual_balance + c.net_amount) :=
  have h : submit_claim true 1 0 coverage_state = .ok coverage_state_settled := by
    norm_num [submit_claim, coverage_state, coverage_state_settled,
      settle_commit, settled_state, claim_charge, CLAIM_FEE_PERCENT,
      CLAIM_FEE_MIN, List.find?]
  ⟨h, by norm_num [coverage_state_settled],
    by norm_num [coverage_state_settled],
    c3_claim_amount_and_fee 1 0 coverage_state coverage_state_settled h⟩

/-! ### Claim C4 -/

/-- C4: For every accepted deposit of amount `a`, the service fee equals
`max(a * 2.5/100, 10)` (the configured deposit fee rule) and the new
balance is the old balance plus `a` minus the fee; the recorded deposit
Transaction carries exactly that fee. -/
theorem c4_deposit_fee (a : Money) (st st' : AppState)
    (h : deposit a st = .ok st') :
    ∃ t : TransactionRec,
      st'.transactions = st.transactions ++ [t] ∧
      t.service_fee = max (a * SERVICE_FEE_PERCENT / 100) SERVICE_FEE_MIN ∧
      st'.user.virtual_balance =
        st.user.virtual_balance + a - t.service_fee := by
  obtain ⟨-, -, hst⟩ := deposit_ok h
  subst hst
  refine ⟨⟨"deposit", a, service_charge a, a - service_charge a,
    "completed"⟩, rfl, service_charge_eq_max a, ?_⟩
  show st.user.virtual_balance + (a - service_charge a) = _
  ring

/-- Witness for C4: depositing R1,000 into a zero-balance account charges
a R25 fee and yields balance R975. -/
theorem c4_witness :
    deposit 1000 (initState 7) = .ok deposited_state ∧
    deposited_state.user.virtual_balance = 975 ∧
    (∃ t : TransactionRec,
      deposited_state.transactions = (initState 7).transactions ++ [t] ∧
      t.service_fee = max (1000 * SERVICE_FEE_PERCENT / 100) SERVICE_FEE_MIN ∧
      deposited_state.user.virtual_balance =
        (initState 7).user.virtual_balance + 1000 - t.service_fee) :=
  have h : deposit 1000 (initState 7) = .ok deposited_state := by
    norm_num [deposit, initState, deposited_state, User.can_deposit,
      MAX_BALANCE, MAX_DEPOSIT_PER_TRANSACTION, service_charge,
      SERVICE_FEE_PERCENT, SERVICE_FEE_MIN]
  ⟨h, by norm_num [deposited_state],
    c4_deposit_fee 1000 (initState 7) deposited_state h⟩

/-! ### Claim C5 -/

/-- The deposit acceptance condition exactly as the spec words it:
amount within the per-transaction cap and balance plus the NET amount
(amount minus service fee) within the balance cap. Stated from the spec
for comparison with the code's `User.can_deposit`, which uses the gross
amount. -/
def spec_deposit_accepted (balance amount : Money) : Prop :=
  amount ≤ MAX_DEPOSIT_PER_TRANSACTION ∧
    balance + (amount - max (amount * SERVICE_FEE_PERCENT / 100)
      SERVICE_FEE_MIN) ≤ MAX_BALANCE

instance (b a : Money) : Decidable (spec_deposit_accepted b a) := by
  unfold spec_deposit_accepted
  exact inferInstance

/-- C5 counterexample: with balance R99,990 and a R20 deposit, the
spec's acceptance condition holds (net amount R10 lands exactly on the
R100,000 cap), yet the code rejects the deposit, because
`User.can_deposit` compares the balance cap against the GROSS amount
(99,990 + 20 > 100,000). -/
theorem c5_counterexample :
    spec_deposit_accepted 99990 20 ∧
    (deposit 20 near_max_state).isOk = false ∧
    near_max_state.user.virtual_balance = 99990 := by
  refine ⟨⟨?_, ?_⟩, ?_, by norm_num [near_max_state]⟩
  · norm_num [MAX_DEPOSIT_PER_TRANSACTION]
  · have hmax : max ((20 : Money) * SERVICE_FEE_PERCENT / 100)
        SERVICE_FEE_MIN = 10 := by
      rw [max_eq_right (by norm_num [SERVICE_FEE_PERCENT, SERVICE_FEE_MIN])]
      norm_num [SERVICE_FEE_MIN]
    rw [hmax]
    norm_num [MAX_BALANCE, near_max_state]
  · norm_num [deposit, near_max_state, User.can_deposit, MAX_BALANCE,
      MAX_DEPOSIT_PER_TRANSACTION, Except.isOk, Except.toBool]

/-- C5 (amended): a deposit is accepted exactly when the form bounds
hold (10 ≤ amount ≤ maxPerTransaction) and balance + amount — the gross
amount, not the net — is within maxBalance; on violation it fails with
an error and no state mutation. -/
theorem c5_amended_deposit_acceptance (a : Money) (st : AppState) :
    ((10 ≤ a ∧ a ≤ MAX_DEPOSIT_PER_TRANSACTION ∧
        st.user.virtual_balance + a ≤ MAX_BALANCE) →
      ∃ st', deposit a st = .ok st') ∧
    (¬ (10 ≤ a ∧ a ≤ MAX_DEPOSIT_PER_TRANSACTION ∧
        st.user.virtual_balance + a ≤ MAX_BALANCE) →
      ∃ e, deposit a st = .error e ∧ step (.opDeposit a) st = st) := by
  constructor
  · rintro ⟨ha, hb, hc⟩
    refine ⟨{ st with
      user := { st.user with
        virtual_balance := st.user.virtual_balance + (a - service_charge a) },
      transactions := st.transactions ++
        [⟨"deposit", a, service_charge a, a - service_charge a,
          "completed"⟩] }, ?_⟩
    unfold deposit
    rw [if_neg (not_not_intro ⟨ha, hb⟩), if_neg (not_not_intro ⟨hb, hc⟩)]
  · intro hnc
    by_cases h1 : 10 ≤ a ∧ a ≤ 50000
    · by_cases h2 : st.user.can_deposit a
      · exact absurd ⟨h1.1, h2.1, h2.2⟩ hnc
      · have hdep : deposit a st = .error .limitExceeded := by
          unfold deposit
          rw [if_neg (not_not_intro h1), if_pos h2]
        exact ⟨.limitExceeded, hdep, step_eq_of_err (.opDeposit a) hdep⟩
    · have hdep : deposit a st = .error .formInvalid := by
        unfold deposit
        rw [if_pos h1]
      exact ⟨.formInvalid, hdep, step_eq_of_err (.opDeposit a) hdep⟩

/-- Witness for the amended C5: a R1,000 deposit on a fresh account is
accepted, and the over-cap R20 deposit at balance R99,990 is rejected
with no state change. -/
theorem c5_amended_witness :
    (∃ st', deposit 1000 (initState 7) = .ok st') ∧
    (∃ e, deposit 20 near_max_state = .error e ∧
      step (.opDeposit 20) near_max_state = near_max_state) :=
  ⟨(c5_amended_deposit_acceptance 1000 (initState 7)).1
      ⟨by norm_num, by norm_num [MAX_DEPOSIT_PER_TRANSACTION],
        by norm_num [initState, MAX_BALANCE]⟩,
   (c5_amended_deposit_acceptance 20 near_max_state).2
      (by
        rintro ⟨-, -, hc⟩
        rw [show near_max_state.user.virtual_balance = 99990 from rfl] at hc
        revert hc
        norm_num [MAX_BALANCE])⟩

/-! ### Claim C6 -/

theorem service_charge_le_self {a : Money} (ha : 10 ≤ a) :
    service_charge a ≤ a := by
  rw [service_charge_eq_max]
  apply max_le
  · unfold SERVICE_FEE_PERCENT
    linarith
  · unfold SERVICE_FEE_MIN
    exact ha

theorem claim_charge_le_self {c : Money} (hc : 1000 ≤ c) :
    claim_charge c ≤ c := by
  rw [claim_charge_eq_max]
  apply max_le
  · unfold CLAIM_FEE_PERCENT
    linarith
  · unfold CLAIM_FEE_MIN
    linarith

/-- The inductive invariant behind balance non-negativity: the balance is
non-negative, and every policy on file was created through the policy
form, whose coverage floor is R1,000 (so every settlement's net payout is
non-negative). -/
def BalCovInv (st : AppState) : Prop :=
  0 ≤ st.user.virtual_balance ∧ ∀ p ∈ st.policies, 1000 ≤ p.coverage_amount

theorem step_preserves_BalCovInv (op : Op) (st : AppState)
    (h : BalCovInv st) : BalCovInv (step op st) := by
  cases op with
  | opDeposit a =>
    cases hr : deposit a st with
    | error e => rw [step_eq_of_err (.opDeposit a) hr]; exact h
    | ok s =>
      rw [step_eq_of_ok (.opDeposit a) hr]
      obtain ⟨⟨h10, -⟩, -, rfl⟩ := deposit_ok hr
      refine ⟨?_, h.2⟩
      have hle := service_charge_le_self h10
      have h0 := h.1
      show 0 ≤ st.user.virtual_balance + (a - service_charge a)
      linarith
  | opPayRegistrationFee =>
    cases hr : pay_registration_fee st with
    | error e => rw [step_eq_of_err .opPayRegistrationFee hr]; exact h
    | ok s =>
      rw [step_eq_of_ok .opPayRegistrationFee hr]
      obtain ⟨-, hbal, rfl⟩ := pay_registration_fee_ok hr
      refine ⟨?_, h.2⟩
      show 0 ≤ st.user.virtual_balance - REGISTRATION_FEE
      linarith
  | opCreatePolicy c s0 =>
    cases hr : create_policy c s0 st with
    | error e => rw [step_eq_of_err (.opCreatePolicy c s0) hr]; exact h
    | ok s =>
      rw [step_eq_of_ok (.opCreatePolicy c s0) hr]
      obtain ⟨-, ⟨hc1000, -⟩, rfl⟩ := create_policy_ok hr
      refine ⟨h.1, ?_⟩
      intro p hp
      rcases List.mem_append.mp hp with hp | hp
      · exact h.2 p hp
      · rw [List.mem_singleton.mp hp]
        exact hc1000
  | opAddMember pid age =>
    cases hr : add_member pid age st with
    | error e => rw [step_eq_of_err (.opAddMember pid age) hr]; exact h
    | ok s =>
      rw [step_eq_of_ok (.opAddMember pid age) hr]
      obtain ⟨p, -, -, -, rfl⟩ := add_member_ok hr
      exact ⟨h.1, h.2⟩
  | opPayPremium pid a =>
    cases hr : pay_premium pid a st with
    | error e => rw [step_eq_of_err (.opPayPremium pid a) hr]; exact h
    | ok s =>
      rw [step_eq_of_ok (.opPayPremium pid a) hr]
      obtain ⟨p, -, -, -, -, hble, rfl⟩ := pay_premium_ok hr
      constructor
      · show 0 ≤ st.user.virtual_balance - a
        linarith
      · intro q hq
        obtain ⟨q0, hq0, rfl⟩ := List.mem_map.mp hq
        by_cases hid : q0.id = pid
        · rw [if_pos hid]
          exact h.2 q0 hq0
        · rw [if_neg hid]
          exact h.2 q0 hq0
  | opSubmitClaim ok pid mid =>
    cases hr : submit_claim ok pid mid st with
    | error e => rw [step_eq_of_err (.opSubmitClaim ok pid mid) hr]; exact h
    | ok s =>
      rw [step_eq_of_ok (.opSubmitClaim ok pid mid) hr]
      obtain ⟨-, -, p, hp, -, rfl, -⟩ := submit_claim_ok hr
      have hcov := h.2 p (List.mem_of_find?_eq_some hp)
      have hle := claim_charge_le_self hcov
      constructor
      · show 0 ≤ st.user.virtual_balance +
          (p.coverage_amount - claim_charge p.coverage_amount)
        have h0 := h.1
        linarith
      · exact h.2

/-- C6: Balance non-negativity — starting from a fresh zero-balance
account, every sequence of core operations (each of which checks its own
preconditions and is skipped when they fail) leaves the virtual balance
non-negative. -/
theorem c6_balance_nonneg (ops : List Op) (uid : ℤ) :
    0 ≤ (run ops (initState uid)).user.virtual_balance := by
  have hinit : BalCovInv (initState uid) := by
    refine ⟨le_refl 0, ?_⟩
    intro p hp
    exact absurd hp (List.not_mem_nil p)
  suffices hall : ∀ st, BalCovInv st → BalCovInv (run ops st) from
    (hall _ hinit).1
  induction ops with
  | nil => intro st hst; exact hst
  | cons o t ih =>
    intro st hst
    exact ih _ (step_preserves_BalCovInv o st hst)

/-! ### Claim C7 -/

/-- The age bands of Config.AGE_BANDS as integer ranges, band `i` being
the i-th branch of `calculate_age_premium`'s if/elif chain. -/
def in_band (a : ℤ) (i : Fin 6) : Prop :=
  if i.val = 0 then a ≤ 18
  else if i.val = 1 then 19 ≤ a ∧ a ≤ 30
  else if i.val = 2 then 31 ≤ a ∧ a ≤ 45
  else if i.val = 3 then 46 ≤ a ∧ a ≤ 60
  else if i.val = 4 then 61 ≤ a ∧ a ≤ 75
  else 76 ≤ a

/-- C7: `calculate_age_premium` is total and monotone over the configured
bands — every integer age lies in exactly one band, an age in band `i`
gets exactly that band's configured rate, boundary ages belong to the
lower band (age ≤ 18 gets the first band's rate), and the premium is
non-decreasing in age. -/
theorem c7_age_premium_bands :
    (∀ a : ℤ, ∃! i : Fin 6, in_band a i) ∧
    (∀ (a : ℤ) (i : Fin 6), in_band a i →
      calculate_age_premium a = AGE_BANDS i) ∧
    (∀ a : ℤ, a ≤ 18 → calculate_age_premium a = AGE_BANDS 0) ∧
    (∀ a b : ℤ, a ≤ b →
      calculate_age_premium a ≤ calculate_age_premium b) := by
  have hband : ∀ (a : ℤ) (i : Fin 6), in_band a i →
      calculate_age_premium a = AGE_BANDS i := by
    intro a i hi
    fin_cases i <;>
      simp only [in_band] at hi <;>
      norm_num at hi <;>
      unfold calculate_age_premium <;>
      split_ifs <;>
      first | rfl | omega
  refine ⟨?_, hband, ?_, ?_⟩
  · intro a
    have hcases : a ≤ 18 ∨ (19 ≤ a ∧ a ≤ 30) ∨ (31 ≤ a ∧ a ≤ 45) ∨
        (46 ≤ a ∧ a ≤ 60) ∨ (61 ≤ a ∧ a ≤ 75) ∨ 76 ≤ a := by omega
    have huniq : ∀ (i : Fin 6), in_band a i → ∀ (j : Fin 6),
        in_band a j → j = i := by
      intro i hi j hj
      fin_cases i <;> fin_cases j <;>
        simp only [in_band] at hi hj <;>
        norm_num at hi hj ⊢ <;>
        omega
    rcases hcases with h | h | h | h | h | h
    · exact ⟨⟨0, by omega⟩, by simp [in_band]; omega,
        fun j hj => huniq ⟨0, by omega⟩ (by simp [in_band]; omega) j hj⟩
    · exact ⟨⟨1, by omega⟩, by simp [in_band]; omega,
        fun j hj => huniq ⟨1, by omega⟩ (by simp [in_band]; omega) j hj⟩
    · exact ⟨⟨2, by omega⟩, by simp [in_band]; omega,
        fun j hj => huniq ⟨2, by omega⟩ (by simp [in_band]; omega) j hj⟩
    · exact ⟨⟨3, by omega⟩, by simp [in_band]; omega,
        fun j hj => huniq ⟨3, by omega⟩ (by simp [in_band]; omega) j hj⟩
    · exact ⟨⟨4, by omega⟩, by simp [in_band]; omega,
        fun j hj => huniq ⟨4, by omega⟩ (by simp [in_band]; omega) j hj⟩
    · exact ⟨⟨5, by omega⟩, by simp [in_band]; omega,
        fun j hj => huniq ⟨5, by omega⟩ (by simp [in_band]; omega) j hj⟩
  · intro a ha
    exact hband a 0 (by simp [in_band]; omega)
  · intro a b hab
    unfold calculate_age_premium
    split_ifs <;> first | omega | norm_num [AGE_BANDS]

/-- Witness for C7: age 17 (first band) pays no more than age 19 (second
band), and the boundary age 18 still gets the first band's rate. -/
theorem c7_witness :
    calculate_age_premium 17 ≤ calculate_age_premium 19 ∧
    calculate_age_premium 18 = AGE_BANDS 0 :=
  ⟨c7_age_premium_bands.2.2.2 17 19 (by omega),
   c7_age_premium_bands.2.2.1 18 (by omega)⟩

/-! ### Claim C8 -/

/-- C8: `add_member` on an owned policy fails with the capacity error
exactly when the policy already carries 14 covered members, and with 13
or fewer it appends the member with `is_active = true` and
`has_claim = false` (the column defaults), so a policy accepts covered
members exactly up to 14 — 15 lives including the owner. -/
theorem c8_member_capacity (pid age : ℤ) (st : AppState) (p : Policy)
    (hp : st.policies.find? (fun q => q.id == pid) = some p)
    (hown : p.user_id = st.user.id) :
    (14 ≤ (st.covered_members.filter (fun m => m.policy_id == pid)).length →
      add_member pid age st = .error .capacityExceeded) ∧
    ((st.covered_members.filter (fun m => m.policy_id == pid)).length ≤ 13 →
      add_member pid age st = .ok { st with
        covered_members := st.covered_members ++
          [⟨st.next_id, pid, calculate_age_premium age, true, false⟩],
        next_id := st.next_id + 1 }) := by
  unfold add_member
  rw [hp]
  simp only
  constructor
  · intro h14
    rw [if_neg (not_not_intro hown), if_pos h14]
  · intro h13
    rw [if_neg (not_not_intro hown), if_neg (by omega)]

/-- A policy of account 7 already carrying 14 covered members. -/
def cap_state : AppState :=
  ⟨⟨7, 0, true⟩, [⟨1, 7, 50000, 50, "active", 0, 30⟩],
   [⟨2, 1, 100, true, false⟩, ⟨3, 1, 100, true, false⟩,
    ⟨4, 1, 100, true, false⟩, ⟨5, 1, 100, true, false⟩,
    ⟨6, 1, 100, true, false⟩, ⟨7, 1, 100, true, false⟩,
    ⟨8, 1, 100, true, false⟩, ⟨9, 1, 100, true, false⟩,
    ⟨10, 1, 100, true, false⟩, ⟨11, 1, 100, true, false⟩,
    ⟨12, 1, 100, true, false⟩, ⟨13, 1, 100, true, false⟩,
    ⟨14, 1, 100, true, false⟩, ⟨15, 1, 100, true, false⟩],
   [], [], 16⟩

/-- A policy of account 7 with no covered members yet. -/
def room_state : AppState :=
  ⟨⟨7, 0, true⟩, [⟨1, 7, 50000, 50, "active", 0, 30⟩], [], [], [], 2⟩

/-- Witness for C8: the 15th covered member is rejected at `cap_state`
(14 already present), while at `room_state` the member is appended
active and unclaimed. -/
theorem c8_witness :
    add_member 1 40 cap_state = .error .capacityExceeded ∧
    add_member 1 40 room_state = .ok { room_state with
      covered_members := room_state.covered_members ++
        [⟨room_state.next_id, 1, calculate_age_premium 40, true, false⟩],
      next_id := room_state.next_id + 1 } :=
  ⟨(c8_member_capacity 1 40 cap_state ⟨1, 7, 50000, 50, "active", 0, 30⟩
      rfl rfl).1 (by norm_num [cap_state]),
   (c8_member_capacity 1 40 room_state ⟨1, 7, 50000, 50, "active", 0, 30⟩
      rfl rfl).2 (by norm_num [room_state])⟩

/-! ### Claim C9 -/

/-- C9: A policy's `next_payment_date` never moves backward — across any
single operation, a policy that exists before and after either keeps its
`next_payment_date` unchanged or, exactly when the operation is a
successful premium payment for that policy, has it advanced by exactly
30 days. -/
theorem c9_next_payment_only_advances (op : Op) (st : AppState)
    (pid : ℤ) (p p' : Policy)
    (hp : st.policies.find? (fun q => q.id == pid) = some p)
    (hp' : (step op st).policies.find? (fun q => q.id == pid) = some p') :
    p'.next_payment_date = p.next_payment_date ∨
      (p'.next_payment_date = p.next_payment_date + 30 ∧
        ∃ a, op = Op.opPayPremium pid a) := by
  cases op with
  | opDeposit a =>
    cases hr : deposit a st with
    | error e =>
      rw [step_eq_of_err (.opDeposit a) hr] at hp'
      rw [Option.some.inj (hp.symm.trans hp')]
      exact Or.inl rfl
    | ok s =>
      obtain ⟨-, -, rfl⟩ := deposit_ok hr
      rw [step_eq_of_ok (.opDeposit a) hr] at hp'
      rw [Option.some.inj (hp.symm.trans hp')]
      exact Or.inl rfl
  | opPayRegistrationFee =>
    cases hr : pay_registration_fee st with
    | error e =>
      rw [step_eq_of_err .opPayRegistrationFee hr] at hp'
      rw [Option.some.inj (hp.symm.trans hp')]
      exact Or.inl rfl
    | ok s =>
      obtain ⟨-, -, rfl⟩ := pay_registration_fee_ok hr
      rw [step_eq_of_ok .opPayRegistrationFee hr] at hp'
      rw [Option.some.inj (hp.symm.trans hp')]
      exact Or.inl rfl
  | opCreatePolicy c s0 =>
    cases hr : create_policy c s0 st with
    | error e =>
      rw [step_eq_of_err (.opCreatePolicy c s0) hr] at hp'
      rw [Option.some.inj (hp.symm.trans hp')]
      exact Or.inl rfl
    | ok s =>
      obtain ⟨-, -, rfl⟩ := create_policy_ok hr
      rw [step_eq_of_ok (.opCreatePolicy c s0) hr] at hp'
      have hap : ({ st with
          policies := st.policies ++
            [⟨st.next_id, st.user.id, c, c * (1/1000), "active", s0, s0 + 30⟩],
          next_id := st.next_id + 1 } : AppState).policies.find?
            (fun q => q.id == pid) = some p := find?_append_of_some hp
      rw [Option.some.inj (hap.symm.trans hp')]
      exact Or.inl rfl
  | opAddMember pid0 age =>
    cases hr : add_member pid0 age st with
    | error e =>
      rw [step_eq_of_err (.opAddMember pid0 age) hr] at hp'
      rw [Option.some.inj (hp.symm.trans hp')]
      exact Or.inl rfl
    | ok s =>
      obtain ⟨q, -, -, -, rfl⟩ := add_member_ok hr
      rw [step_eq_of_ok (.opAddMember pid0 age) hr] at hp'
      rw [Option.some.inj (hp.symm.trans hp')]
      exact Or.inl rfl
  | opPayPremium pid0 a =>
    cases hr : pay_premium pid0 a st with
    | error e =>
      rw [step_eq_of_err (.opPayPremium pid0 a) hr] at hp'
      rw [Option.some.inj (hp.symm.trans hp')]
      exact Or.inl rfl
    | ok s =>
      obtain ⟨q, -, -, -, -, -, rfl⟩ := pay_premium_ok hr
      rw [step_eq_of_ok (.opPayPremium pid0 a) hr] at hp'
      have hmap : (st.policies.map (fun r =>
          if r.id = pid0 then
            { r with next_payment_date := r.next_payment_date + 30 }
          else r)).find? (fun q => q.id == pid) =
          (st.policies.find? (fun q => q.id == pid)).map (fun r =>
            if r.id = pid0 then
              { r with next_payment_date := r.next_payment_date + 30 }
            else r) := by
        apply find?_map_of_id_pred
        intro x
        by_cases hx : x.id = pid0
        · rw [if_pos hx]
        · rw [if_neg hx]
      rw [hmap, hp] at hp'
      have hpeq : (if p.id = pid0 then
          { p with next_payment_date := p.next_payment_date + 30 }
          else p) = p' := Option.some.inj hp'
      by_cases hid : p.id = pid0
      · rw [if_pos hid] at hpeq
        rw [← hpeq]
        refine Or.inr ⟨rfl, a, ?_⟩
        have hpid : p.id = pid := by
          have := List.find?_some hp
          exact beq_iff_eq.mp this
        rw [← hid, hpid]
      · rw [if_neg hid] at hpeq
        rw [← hpeq]
        exact Or.inl rfl
  | opSubmitClaim ok pid0 mid =>
    cases hr : submit_claim ok pid0 mid st with
    | error e =>
      rw [step_eq_of_err (.opSubmitClaim ok pid0 mid) hr] at hp'
      rw [Option.some.inj (hp.symm.trans hp')]
      exact Or.inl rfl
    | ok s =>
      obtain ⟨-, -, q, -, -, rfl, -⟩ := submit_claim_ok hr
      rw [step_eq_of_ok (.opSubmitClaim ok pid0 mid) hr] at hp'
      rw [Option.some.inj (hp.symm.trans hp')]
      exact Or.inl rfl

/-- Account 7 with a policy 1 whose next payment falls on day 30 and a
covered member costing R100 a month, and enough balance to pay. -/
def premium_state : AppState :=
  ⟨⟨7, 1000, true⟩, [⟨1, 7, 50000, 50, "active", 0, 30⟩],
   [⟨2, 1, 100, true, false⟩], [], [], 3⟩

/-- Witness for C9: paying the premium on `premium_state`'s policy 1
moves `next_payment_date` from day 30 to day 60 — the +30 branch of the
theorem at a concrete input. -/
theorem c9_witness :
    (⟨1, 7, 50000, 50, "active", 0, 60⟩ : Policy).next_payment_date =
        (⟨1, 7, 50000, 50, "active", 0, 30⟩ : Policy).next_payment_date ∨
      ((⟨1, 7, 50000, 50, "active", 0, 60⟩ : Policy).next_payment_date =
        (⟨1, 7, 50000, 50, "active", 0, 30⟩ : Policy).next_payment_date + 30 ∧
        ∃ a, Op.opPayPremium 1 200 = Op.opPayPremium 1 a) :=
  c9_next_payment_only_advances (.opPayPremium 1 200) premium_state 1
    ⟨1, 7, 50000, 50, "active", 0, 30⟩ ⟨1, 7, 50000, 50, "active", 0, 60⟩
    rfl
    (by
      have hpay : apply_op (.opPayPremium 1 200) premium_state = .ok
          (⟨⟨7, 800, true⟩, [⟨1, 7, 50000, 50, "active", 0, 60⟩],
           [⟨2, 1, 100, true, false⟩], [],
           [⟨"premium_payment", 200, 10, -200, "completed"⟩], 3⟩ : AppState) := by
        show pay_premium 1 200 premium_state = _
        norm_num [pay_premium, premium_state, calculate_total_premium,
          service_charge, SERVICE_FEE_PERCENT, SERVICE_FEE_MIN,
          List.find?, List.filter]
      rw [step_eq_of_ok (.opPayPremium 1 200) hpay]
      rfl)

/-! ### Claim C10 -/

theorem settled_state_members_inv (p : Policy) (cmid : Option ℤ)
    (pid : ℤ) (st : AppState)
    (hInv : ∀ m ∈ st.covered_members, m.has_claim = true →
      m.is_active = false) :
    ∀ m ∈ (settled_state p cmid pid st).covered_members,
      m.has_claim = true → m.is_active = false := by
  cases cmid with
  | none => exact hInv
  | some mid =>
    intro m hm
    have hm' : m ∈ st.covered_members.map (fun w =>
        if w.id = mid then { w with has_claim := true, is_active := false }
        else w) := hm
    obtain ⟨x, hx, rfl⟩ := List.mem_map.mp hm'
    by_cases hid : x.id = mid
    · rw [if_pos hid]
      intro _
      rfl
    · rw [if_neg hid]
      exact hInv x hx

/-- C10: Every operation preserves the invariant that a covered member
with `has_claim = true` is inactive, and in particular a successful
settlement that names a member (member id ≠ 0) leaves that member with
`has_claim = true` and `is_active = false`. -/
theorem c10_claimed_members_inactive (op : Op) (st : AppState)
    (hInv : ∀ m ∈ st.covered_members, m.has_claim = true →
      m.is_active = false) :
    (∀ m ∈ (step op st).covered_members, m.has_claim = true →
      m.is_active = false) ∧
    (∀ (ok : Bool) (pid mid : ℤ) (st1 st1' : AppState), mid ≠ 0 →
      submit_claim ok pid mid st1 = .ok st1' →
      ∀ m ∈ st1'.covered_members, m.id = mid →
        m.has_claim = true ∧ m.is_active = false) := by
  constructor
  · cases op with
    | opDeposit a =>
      cases hr : deposit a st with
      | error e => rw [step_eq_of_err (.opDeposit a) hr]; exact hInv
      | ok s =>
        rw [step_eq_of_ok (.opDeposit a) hr]
        obtain ⟨-, -, rfl⟩ := deposit_ok hr
        exact hInv
    | opPayRegistrationFee =>
      cases hr : pay_registration_fee st with
      | error e => rw [step_eq_of_err .opPayRegistrationFee hr]; exact hInv
      | ok s =>
        rw [step_eq_of_ok .opPayRegistrationFee hr]
        obtain ⟨-, -, rfl⟩ := pay_registration_fee_ok hr
        exact hInv
    | opCreatePolicy c s0 =>
      cases hr : create_policy c s0 st with
      | error e => rw [step_eq_of_err (.opCreatePolicy c s0) hr]; exact hInv
      | ok s =>
        rw [step_eq_of_ok (.opCreatePolicy c s0) hr]
        obtain ⟨-, -, rfl⟩ := create_policy_ok hr
        exact hInv
    | opAddMember pid age =>
      cases hr : add_member pid age st with
      | error e => rw [step_eq_of_err (.opAddMember pid age) hr]; exact hInv
      | ok s =>
        rw [step_eq_of_ok (.opAddMember pid age) hr]
        obtain ⟨q, -, -, -, rfl⟩ := add_member_ok hr
        intro m hm
        have hm' : m ∈ st.covered_members ++
            [⟨st.next_id, pid, calculate_age_premium age, true, false⟩] := hm
        rcases List.mem_append.mp hm' with hmem | hmem
        · exact hInv m hmem
        · rw [List.mem_singleton.mp hmem]
          intro hc
          exact absurd hc (by simp)
    | opPayPremium pid a =>
      cases hr : pay_premium pid a st with
      | error e => rw [step_eq_of_err (.opPayPremium pid a) hr]; exact hInv
      | ok s =>
        rw [step_eq_of_ok (.opPayPremium pid a) hr]
        obtain ⟨q, -, -, -, -, -, rfl⟩ := pay_premium_ok hr
        exact hInv
    | opSubmitClaim ok pid mid =>
      cases hr : submit_claim ok pid mid st with
      | error e => rw [step_eq_of_err (.opSubmitClaim ok pid mid) hr]; exact hInv
      | ok s =>
        rw [step_eq_of_ok (.opSubmitClaim ok pid mid) hr]
        obtain ⟨-, -, q, -, -, rfl, -⟩ := submit_claim_ok hr
        exact settled_state_members_inv q _ pid st hInv
  · intro ok pid mid st1 st1' hmid h
    obtain ⟨-, -, q, -, -, rfl, -⟩ := submit_claim_ok h
    rw [if_neg hmid]
    intro m hm hmidm
    have hm' : m ∈ st1.covered_members.map (fun w =>
        if w.id = mid then { w with has_claim := true, is_active := false }
        else w) := hm
    obtain ⟨x, hx, rfl⟩ := List.mem_map.mp hm'
    by_cases hid : x.id = mid
    · rw [if_pos hid]
      exact ⟨rfl, rfl⟩
    · rw [if_neg hid] at hmidm ⊢
      exact absurd hmidm hid

/-- Witness for C10: after the settlement naming member 2 at
`member_state`, that member is recorded claimed and inactive. -/
theorem c10_witness :
    (⟨2, 1, 100, false, true⟩ : CoveredMember).has_claim = true ∧
    (⟨2, 1, 100, false, true⟩ : CoveredMember).is_active = false :=
  (c10_claimed_members_inactive (.opSubmitClaim true 1 2) member_state
      (by
        intro m hm hc
        have hm' : m ∈ [(⟨2, 1, 100, true, false⟩ : CoveredMember)] := hm
        rw [List.mem_singleton.mp hm'] at hc
        exact absurd hc (by simp))).2
    true 1 2 member_state member_state_settled (by omega)
    (by
      norm_num [submit_claim, member_state, member_state_settled,
        settle_commit, settled_state, claim_charge, CLAIM_FEE_PERCENT,
        CLAIM_FEE_MIN, List.find?])
    ⟨2, 1, 100, false, true⟩
    (by
      have : (⟨2, 1, 100, false, true⟩ : CoveredMember) ∈
          [(⟨2, 1, 100, false, true⟩ : CoveredMember)] :=
        List.mem_singleton.mpr rfl
      exact this)
    rfl

end Nkuna
